import Mathlib

set_option maxRecDepth 8192

/-!
Verification development for the Kani VS Code extension's source-code
analyzer and coverage-file handling.

Two groups of definitions:

1. `KaniExt` — the harness analyzer (`SourceCodeParser`).  Its implementation
   file (`src/ui/sourceCodeParser.ts`) is not part of the available sources
   (only its test suites are), so the analyzer is modelled from the
   specification: the syntax tree produced by the grammar adapter is taken
   as input (an abstract `Item` tree of function items and module bodies),
   parse failure is represented by `Option`, and the detector / classifier /
   aggregator pipeline follows the spec's component design (§4.2–§4.6).

2. `Coverage` — a direct shallow embedding of
   `src/src/coverage/coverageParser.ts` (`CoverageFile.setFileType`,
   `CoverageParser.lcovExtract`, `CoverageParser.filesToSections`), with
   promise settlement modelled by `Option` (`none` = the promise never
   settles) and the lcov delegate's behaviour abstracted as a value.
-/

namespace KaniExt

/-- Modelled from the spec: substring containment on raw text (the analyzer's
cheap pre-check scans the source text for literal markers). Mirrors
JavaScript `String.prototype.includes`. -/
def containsSub (text pat : String) : Bool :=
  decide (pat.toList <:+: text.toList)

/-- Modelled from the spec (§3, §4.2): an attribute node attached to a
function item.  `args` holds the raw text of each argument inside the
attribute's parenthesized argument list, exactly as `literalArgumentsOf`
extracts it: trimmed only at the outer delimiters, interior whitespace
preserved. -/
structure AttributeNode where
  name : String
  args : List String
deriving Repr, DecidableEq

/-- Modelled from the spec (§3): a function item of the syntax tree, as seen
by the tree-walking primitives: declared name, start line of its span,
attached attribute nodes in source order, and the callee identifiers of the
call expressions in its body's expression statements. -/
structure FnItem where
  name : String
  startLine : Nat
  attrs : List AttributeNode
  calls : List String
deriving Repr, DecidableEq

/-- Modelled from the spec (§3): a named child of the root (or of a module
body): either a function item or a module containing further items. -/
inductive Item where
  | fn (f : FnItem)
  | mod (sub : List Item)
deriving Repr

/-- Modelled from the spec (§3): harness kind. -/
inductive HarnessKind where
  | Proof
  | UnitTest
deriving Repr, DecidableEq

/-- Modelled from the spec (§3): a typed attribute descriptor produced by the
attribute classifier. -/
structure AttributeDescriptor where
  name : String
  args : List String
  supported : Bool
deriving Repr, DecidableEq

/-- Modelled from the spec (§3): per-harness metadata record. -/
structure HarnessMetadata where
  harnessName : String
  kind : HarnessKind
  startLine : Nat
  attributes : List AttributeDescriptor
  totalProofs : Nat
deriving Repr, DecidableEq

/-- Modelled from the spec (§4.6): a generated replay-test record. -/
structure GeneratedTestRecord where
  testFunctionName : String
  originatingHarnessName : String
  insertionLine : Nat
deriving Repr, DecidableEq

/-- Modelled from the spec (§4.3): the fixed proof-marker attribute name and
its alias form used for coverage instrumentation. -/
def proofMarkers : List String :=
  ["kani::proof", "kani::proof_coverage"]

/-- Modelled from the spec (§4.5): the proof marker scanned for by the cheap
textual pre-check. -/
def proofMarkerText : String := "kani::proof"

/-- Modelled from the spec (§4.3): the fixed small set of supported
harness-framework entry points recognized by invocation-based detection. -/
def harnessEntryPoints : List String :=
  ["bolero::check", "kani::proof"]

/-- Modelled from the spec (§3): the fixed allow-list of supported attribute
names (proof, proof-attribute variants, stub-related, unwind-bound,
solver-selection). -/
def supportedAttributes : List String :=
  ["kani::proof", "kani::proof_coverage", "kani::stub", "kani::unwind",
   "kani::solver"]

/-- Modelled from the spec (§4.6): the fixed name prelude of generated
counterexample-replay wrapper functions. -/
def playbackMarker : String := "kani_concrete_playback_"

/-- Modelled from the spec (§3): depth-first, top-to-bottom traversal of the
tree, collecting function items from the root's named children and
recursively from module bodies. -/
def flattenItems : List Item → List FnItem
  | [] => []
  | Item.fn f :: rest => f :: flattenItems rest
  | Item.mod sub :: rest => flattenItems sub ++ flattenItems rest

/-- Modelled from the spec (§4.3): attribute-based detection — a function is
a harness candidate if one of its attached attributes' name is the proof
marker or its coverage alias. -/
def isAttrHarness (f : FnItem) : Bool :=
  f.attrs.any (fun a => proofMarkers.contains a.name)

/-- Modelled from the spec (§4.3): invocation-based detection finds the first
call expression in the body whose callee identifier is a supported
harness-framework entry point, returning the matched callee name. -/
def matchedCallee (f : FnItem) : Option String :=
  f.calls.find? (fun c => harnessEntryPoints.contains c)

/-- Modelled from the spec (§4.3): invocation-based detection succeeds. -/
def isInvHarness (f : FnItem) : Bool :=
  (matchedCallee f).isSome

/-- Modelled from the spec (§4.5 step 3): a function is a standard test
wrapper when it carries the standard `test` attribute. -/
def isTestWrapper (f : FnItem) : Bool :=
  f.attrs.any (fun a => a.name == "test")

/-- Modelled from the spec (§4.5 step 3): the number of harness invocations
contained in the function body. -/
def invocationCount (f : FnItem) : Nat :=
  (f.calls.filter (fun c => harnessEntryPoints.contains c)).length

/-- Modelled from the spec (§3, §4.5 step 3): a candidate is Proof unless the
function itself is a standard test wrapper containing exactly one harness
invocation, in which case it is UnitTest. -/
def harnessKind (f : FnItem) : HarnessKind :=
  if isTestWrapper f && (invocationCount f == 1) then HarnessKind.UnitTest
  else HarnessKind.Proof

/-- Modelled from the spec (§4.3): which detection strategy produced a
candidate; invocation-based detection also records the matched callee. -/
inductive Strategy where
  | attr
  | inv (callee : String)
deriving Repr, DecidableEq

/-- Modelled from the spec (§4.5 step 2): a detected harness candidate. -/
structure Candidate where
  fn : FnItem
  via : Strategy
deriving Repr, DecidableEq

/-- Modelled from the spec (§4.5 step 2): union of the two strategies on one
function item, attribute-based detection taking precedence over
invocation-based on collision. -/
def candidateOf (f : FnItem) : Option Candidate :=
  if isAttrHarness f then some ⟨f, Strategy.attr⟩
  else
    match matchedCallee f with
    | some c => some ⟨f, Strategy.inv c⟩
    | none => none

/-- Modelled from the spec (§4.5 step 2): run both detector strategies over
the tree in discovery order and union the candidates, attribute-based
entries overriding invocation-based ones on name collision. -/
def unionCandidates (items : List Item) : List Candidate :=
  (flattenItems items).filterMap candidateOf

/-- Modelled from the spec (§4.4): the attribute classifier builds a
descriptor regardless of support status; the raw argument text is preserved
verbatim. -/
def classifyAttr (a : AttributeNode) : AttributeDescriptor :=
  { name := a.name
    args := a.args
    supported := supportedAttributes.contains a.name }

/-- Modelled from the spec (§4.4): classify every attached attribute; none is
dropped. -/
def classifyAttrs (attrs : List AttributeNode) : List AttributeDescriptor :=
  attrs.map classifyAttr

/-- Modelled from the spec (§4.5 steps 3–4): the metadata record of one
candidate, stamped with the per-file `totalProofs`. -/
def recordOf (total : Nat) (c : Candidate) : String × HarnessMetadata :=
  (c.fn.name,
   { harnessName := c.fn.name
     kind := harnessKind c.fn
     startLine := c.fn.startLine
     attributes := classifyAttrs c.fn.attrs
     totalProofs := total })

/-- Modelled from the spec (§4.5, `buildMetadataMap`, named
`getAttributeFromRustFile` in the source): aggregate both detectors'
candidates into the ordered harness-metadata map; `none` stands for a source
that failed to parse at all, for which an empty map is returned rather than
a propagated parse exception. -/
def buildMetadataMap (parsed : Option (List Item)) :
    List (String × HarnessMetadata) :=
  match parsed with
  | none => []
  | some items =>
    let cands := unionCandidates items
    let total :=
      (cands.filter (fun c => harnessKind c.fn == HarnessKind.Proof)).length
    cands.map (recordOf total)

/-- Modelled from the spec (§4.5): cheap textual pre-check — true iff the
source text contains the proof marker or a harness-invocation pattern
anywhere. -/
def checkFileForProofs (text : String) : Bool :=
  containsSub text proofMarkerText ||
    harnessEntryPoints.any (fun p => containsSub text p)

/-- Character-level prefix test on strings (the semantics of JavaScript
`String.prototype.startsWith`). -/
def strStartsWith (s pre : String) : Bool :=
  List.isPrefixOf pre.toList s.toList

/-- Modelled from the spec (§4.6): a function item is a generated replay test
when its name follows the fixed naming convention (prelude + originating
harness name) and its body is a thin wrapper invoking that harness — among
the body's callee identifiers is the originating harness name, which is
recovered by stripping the prelude. -/
def generatedTestOf (f : FnItem) : Option GeneratedTestRecord :=
  if strStartsWith f.name playbackMarker &&
      f.calls.contains (f.name.drop playbackMarker.length) then
    some
      { testFunctionName := f.name
        originatingHarnessName := f.name.drop playbackMarker.length
        insertionLine := f.startLine }
  else none

/-- Modelled from the spec (§4.6, `extractGeneratedTests`, named
`extractKaniTestMetadata` in the source): scan the tree for generated replay
tests in discovery order; `none` stands for a source that failed to parse,
yielding the empty sequence. -/
def extractGeneratedTests (parsed : Option (List Item)) :
    List GeneratedTestRecord :=
  match parsed with
  | none => []
  | some items => (flattenItems items).filterMap generatedTestOf

end KaniExt

namespace Coverage

/-- Coverage file types, from `src/src/coverage/coverageParser.ts`
(`enum CoverageType`). -/
inductive CoverageType where
  | NONE
  | LCOV
  | CLOVER
  | COBERTURA
  | JACOCO
deriving Repr, DecidableEq

/-- Embedding of `CoverageFile.setFileType`: sniffs a data string for
indicators of specific coverage formats, with the same branch order as the
source. `KaniExt.containsSub` mirrors JavaScript `String.includes`. -/
def setFileType (file : String) : CoverageType :=
  if KaniExt.containsSub file "<?xml" && KaniExt.containsSub file "<coverage"
      && KaniExt.containsSub file "<project" then
    CoverageType.CLOVER
  else if KaniExt.containsSub file "JACOCO" then CoverageType.JACOCO
  else if KaniExt.containsSub file "<?xml" then CoverageType.COBERTURA
  else if file ≠ "" then CoverageType.LCOV
  else CoverageType.NONE

/-- The parts of an lcov `Section` the coverage parser reads (`section.title`
and `section.file`, used to build the map key). -/
structure CovSection where
  title : String
  file : String
deriving Repr, DecidableEq

/-- JavaScript `Map.set`: override the value in place when the key exists,
append otherwise. -/
def mapSet (m : List (String × CovSection)) (k : String) (v : CovSection) :
    List (String × CovSection) :=
  if m.any (fun p => p.1 == k) then
    m.map (fun p => if p.1 == k then (k, v) else p)
  else m ++ [(k, v)]

/-- Embedding of `CoverageParser.convertSectionsToMap`: each section is keyed
by `title ++ "::" ++ file`; later sections override earlier ones with the
same key. -/
def convertSectionsToMap (data : List CovSection) :
    List (String × CovSection) :=
  data.foldl (fun m s => mapSet m (s.title ++ "::" ++ s.file) s) []

/-- Embedding of `new Map([...a, ...b])`: entries of `b` merged into `a`,
overriding on key collision. -/
def mergeMaps (a b : List (String × CovSection)) :
    List (String × CovSection) :=
  b.foldl (fun m p => mapSet m p.1 p.2) a

/-- Observable behaviours of the lcov delegate parser (`source` from
`lcov-parse`) on one file: it reports a truthy error to its callback, it
succeeds with parsed sections, or it throws synchronously.  Reported and
thrown error values are JavaScript `Error` objects, which are truthy. -/
inductive LcovBehavior where
  | reportsError
  | succeeds (data : List CovSection)
  | throws
deriving Repr

/-- Embedding of the `checkError` closure inside `CoverageParser.lcovExtract`:
given a truthy error it logs and resolves the promise with an empty map
(`some` value = a `resolve` call); given no error it does nothing. -/
def checkError (errTruthy : Bool) : Option (List (String × CovSection)) :=
  if errTruthy then some [] else none

/-- Embedding of `CoverageParser.lcovExtract`.  The returned `Option` is the
promise's settlement: `some m` means it resolves with `m`; `none` would mean
it never settles (the executor never calls `resolve`, and it never calls
`reject`).  Control flow follows the source: a synchronous throw from
`source` is caught and routed through `checkError`; a callback invocation
with a truthy error resolves through `checkError` first (the callback then
fails on the missing data inside its async closure, after the promise has
already settled, so only the first `resolve` counts); a successful callback
resolves with the converted section map. -/
def lcovExtract (b : LcovBehavior) : Option (List (String × CovSection)) :=
  match b with
  | LcovBehavior.throws => checkError true
  | LcovBehavior.reportsError => checkError true
  | LcovBehavior.succeeds data =>
    match checkError false with
    | some m => some m
    | none => some (convertSectionsToMap data)

/-- One iteration of the `for (const file of files)` loop in
`CoverageParser.filesToSections`: sniff the content's type, delegate LCOV
files to `lcovExtract` (awaiting its promise), leave the freshly created
empty map for every other type, and merge into the accumulated coverages.
Awaiting a never-settling promise makes the whole computation never settle,
hence the `Option` threading. -/
def accumFile (delegate : String → String → LcovBehavior)
    (acc : Option (List (String × CovSection))) (file : String × String) :
    Option (List (String × CovSection)) :=
  match acc with
  | none => none
  | some coverages =>
    match setFileType file.2 with
    | CoverageType.LCOV =>
      match lcovExtract (delegate file.1 file.2) with
      | none => none
      | some coverage => some (mergeMaps coverages coverage)
    | _ => some (mergeMaps coverages [])

/-- Embedding of `CoverageParser.filesToSections` over a list of
`(fileName, fileContent)` pairs.  `delegate` gives the lcov parser's
behaviour on each file. -/
def filesToSections (delegate : String → String → LcovBehavior)
    (files : List (String × String)) : Option (List (String × CovSection)) :=
  files.foldl (accumFile delegate) (some [])

end Coverage

namespace KaniExt

/-- Sample attribute node carrying the proof marker. -/
def attrProofNode : AttributeNode := ⟨"kani::proof", []⟩

/-- Sample attribute node with a name outside the allow-list and interior
whitespace in its raw argument text. -/
def unknownAttrNode : AttributeNode := ⟨"custom::option", [" a , b "]⟩

/-- Sample attribute-marked harness function. -/
def sampleAttrFn : FnItem := ⟨"random_name", 3, [attrProofNode], []⟩

/-- Sample invocation-based harness function. -/
def sampleInvFn : FnItem := ⟨"function_abc", 9, [], ["bolero::check"]⟩

/-- Sample ordinary function detected by neither strategy. -/
def samplePlainFn : FnItem := ⟨"helper", 15, [], []⟩

/-- Sample function detected by both strategies. -/
def sampleBothFn : FnItem :=
  ⟨"function_xyz", 21, [attrProofNode], ["bolero::check"]⟩

/-- Sample file with one attribute-based harness, one invocation-based
harness and one plain function. -/
def sampleItems : List Item :=
  [Item.fn sampleAttrFn, Item.fn sampleInvFn, Item.fn samplePlainFn]

/-- Sample harness for the generated-test scenario. -/
def sampleHarnessFn : FnItem := ⟨"insert_test", 1, [attrProofNode], []⟩

/-- First sample generated replay wrapper; its body invokes the harness. -/
def samplePlayback1 : FnItem :=
  ⟨"kani_concrete_playback_insert_test", 10, [], ["insert_test"]⟩

/-- Second sample generated replay wrapper; its body invokes the harness. -/
def samplePlayback2 : FnItem :=
  ⟨"kani_concrete_playback_insert_test", 20, [], ["insert_test"]⟩

/-- The function items underlying the candidate union are exactly the
function items detected by at least one strategy, in discovery order. -/
theorem fns_filterMap_candidateOf (l : List FnItem) :
    (l.filterMap candidateOf).map Candidate.fn =
      l.filter (fun f => isAttrHarness f || isInvHarness f) := by
  induction l with
  | nil => rfl
  | cons f t ih =>
    by_cases ha : isAttrHarness f
    · simp [List.filterMap_cons, List.filter_cons, candidateOf, ha, ih]
    · cases hmc : matchedCallee f with
      | some c =>
        simp [List.filterMap_cons, List.filter_cons, candidateOf, ha,
          isInvHarness, hmc, ih]
      | none =>
        simp [List.filterMap_cons, List.filter_cons, candidateOf, ha,
          isInvHarness, hmc, ih]

/-- Splitting the count of detected functions when no function is detected
by both strategies. -/
theorem length_filter_or_disjoint (l : List FnItem)
    (hdisj : ∀ f ∈ l, ¬(isAttrHarness f = true ∧ isInvHarness f = true)) :
    (l.filter (fun f => isAttrHarness f || isInvHarness f)).length =
      (l.filter (fun f => isAttrHarness f)).length +
        (l.filter (fun f => isInvHarness f)).length := by
  induction l with
  | nil => rfl
  | cons f t ih =>
    have hdt : ∀ g ∈ t, ¬(isAttrHarness g = true ∧ isInvHarness g = true) :=
      fun g hg => hdisj g (List.mem_cons_of_mem f hg)
    have hf := hdisj f (List.mem_cons_self f t)
    by_cases ha : isAttrHarness f
    · have hi : isInvHarness f = false := by
        cases hib : isInvHarness f with
        | false => rfl
        | true => exact absurd ⟨ha, hib⟩ hf
      simp [List.filter_cons, ha, hi, ih hdt]
      omega
    · by_cases hi : isInvHarness f
      · simp [List.filter_cons, ha, hi, ih hdt]
        omega
      · simp [List.filter_cons, ha, hi, ih hdt]

/-- The map built over the candidates projects keys to the candidate
function names. -/
theorem buildMetadataMap_keys (items : List Item) :
    (buildMetadataMap (some items)).map Prod.fst =
      ((flattenItems items).filter
        (fun f => isAttrHarness f || isInvHarness f)).map FnItem.name := by
  have h := fns_filterMap_candidateOf (flattenItems items)
  calc (buildMetadataMap (some items)).map Prod.fst
      = ((unionCandidates items).map (recordOf _)).map Prod.fst := rfl
    _ = (unionCandidates items).map (fun c => c.fn.name) := by
        rw [List.map_map]; rfl
    _ = (((flattenItems items).filterMap candidateOf).map
          Candidate.fn).map FnItem.name := by
        rw [List.map_map]; rfl
    _ = _ := by rw [h]

/-- The start lines recorded in the map are those of the candidate
functions. -/
theorem buildMetadataMap_startLines (items : List Item) :
    (buildMetadataMap (some items)).map (fun e => e.2.startLine) =
      (((flattenItems items).filter
        (fun f => isAttrHarness f || isInvHarness f)).map FnItem.startLine) := by
  have h := fns_filterMap_candidateOf (flattenItems items)
  calc (buildMetadataMap (some items)).map (fun e => e.2.startLine)
      = ((unionCandidates items).map (recordOf _)).map (fun e => e.2.startLine) := rfl
    _ = (unionCandidates items).map (fun c => c.fn.startLine) := by
        rw [List.map_map]; rfl
    _ = (((flattenItems items).filterMap candidateOf).map
          Candidate.fn).map FnItem.startLine := by
        rw [List.map_map]; rfl
    _ = _ := by rw [h]

/-- C1: on a file whose function names are distinct and where no function is
detected by both strategies, `buildMetadataMap` returns a map with exactly
N+M entries (N attribute-based plus M invocation-based harnesses), each
entry keyed by the distinct declared function name of one harness, in
discovery order. -/
theorem buildMetadataMap_size_and_keys (items : List Item)
    (hnodup : ((flattenItems items).map FnItem.name).Nodup)
    (hdisj : ∀ f ∈ flattenItems items,
      ¬(isAttrHarness f = true ∧ isInvHarness f = true)) :
    (buildMetadataMap (some items)).length =
        ((flattenItems items).filter (fun f => isAttrHarness f)).length +
          ((flattenItems items).filter (fun f => isInvHarness f)).length ∧
      ((buildMetadataMap (some items)).map Prod.fst).Nodup ∧
      (buildMetadataMap (some items)).map Prod.fst =
        ((flattenItems items).filter
          (fun f => isAttrHarness f || isInvHarness f)).map FnItem.name := by
  have hkeys := buildMetadataMap_keys items
  refine ⟨?_, ?_, hkeys⟩
  · have hlen : (buildMetadataMap (some items)).length =
        ((buildMetadataMap (some items)).map Prod.fst).length := by
      rw [List.length_map]
    rw [hlen, hkeys, List.length_map,
      length_filter_or_disjoint (flattenItems items) hdisj]
  · rw [hkeys]
    have hsub : List.Sublist
        (((flattenItems items).filter
          (fun f => isAttrHarness f || isInvHarness f)).map FnItem.name)
        ((flattenItems items).map FnItem.name) :=
      (List.filter_sublist _).map FnItem.name
    exact hnodup.sublist hsub

/-- C3: on a well-formed parse tree (depth-first traversal visits function
items in strictly increasing start-line order, as the grammar guarantees for
a real source file), the keys of `buildMetadataMap` appear in the same order
as the start lines of their function items: the recorded start lines are
strictly increasing and the keys are exactly the detected function names in
discovery order. -/
theorem buildMetadataMap_discovery_order (items : List Item)
    (hlines : ((flattenItems items).map FnItem.startLine).Pairwise (· < ·)) :
    ((buildMetadataMap (some items)).map
        (fun e => e.2.startLine)).Pairwise (· < ·) ∧
      (buildMetadataMap (some items)).map Prod.fst =
        ((flattenItems items).filter
          (fun f => isAttrHarness f || isInvHarness f)).map FnItem.name := by
  refine ⟨?_, buildMetadataMap_keys items⟩
  rw [buildMetadataMap_startLines items]
  have hsub : List.Sublist
      (((flattenItems items).filter
        (fun f => isAttrHarness f || isInvHarness f)).map FnItem.startLine)
      ((flattenItems items).map FnItem.startLine) :=
    (List.filter_sublist _).map FnItem.startLine
  exact hlines.sublist hsub

/-- C8: a function detected by both strategies contributes its
attribute-based candidate to the union, and no invocation-based candidate
for it appears there: attribute-based detection takes precedence. -/
theorem attr_detection_precedence (items : List Item) (f : FnItem)
    (hmem : f ∈ flattenItems items)
    (ha : isAttrHarness f = true) (hi : isInvHarness f = true) :
    Candidate.mk f Strategy.attr ∈ unionCandidates items ∧
      ∀ c : String, Candidate.mk f (Strategy.inv c) ∉ unionCandidates items := by
  constructor
  · exact List.mem_filterMap.mpr ⟨f, hmem, by simp [candidateOf, ha]⟩
  · intro c hc
    obtain ⟨g, _, hcg⟩ := List.mem_filterMap.mp hc
    by_cases hag : isAttrHarness g
    · simp [candidateOf, hag] at hcg
    · cases hmg : matchedCallee g with
      | some d =>
        simp [candidateOf, hag, hmg] at hcg
        exact hag (hcg.1 ▸ ha)
      | none => simp [candidateOf, hag, hmg] at hcg

/-- C2: a file declaring exactly one attribute-marked function and one
function whose body directly calls a harness-framework entry point, neither
wrapped in a standard test function, yields a two-entry map in which both
records have kind Proof and both carry `totalProofs = 2` (the per-file count
of Proof-kind entries stamped on every record). -/
theorem buildMetadataMap_endToEnd (f1 f2 : FnItem)
    (h1 : isAttrHarness f1 = true) (h1t : isTestWrapper f1 = false)
    (h2a : isAttrHarness f2 = false) (h2i : isInvHarness f2 = true)
    (h2t : isTestWrapper f2 = false) (hne : f1.name ≠ f2.name) :
    (buildMetadataMap (some [Item.fn f1, Item.fn f2])).length = 2 ∧
      ((buildMetadataMap (some [Item.fn f1, Item.fn f2])).map
          Prod.fst).Nodup ∧
      ∀ e ∈ buildMetadataMap (some [Item.fn f1, Item.fn f2]),
        e.2.kind = HarnessKind.Proof ∧ e.2.totalProofs = 2 := by
  obtain ⟨c, hc⟩ : ∃ c, matchedCallee f2 = some c := by
    cases hmc : matchedCallee f2 with
    | some c => exact ⟨c, rfl⟩
    | none => simp [isInvHarness, hmc] at h2i
  have hk1 : harnessKind f1 = HarnessKind.Proof := by
    simp [harnessKind, h1t]
  have hk2 : harnessKind f2 = HarnessKind.Proof := by
    simp [harnessKind, h2t]
  have hflat : flattenItems [Item.fn f1, Item.fn f2] = [f1, f2] := by
    simp [flattenItems]
  have hcands : unionCandidates [Item.fn f1, Item.fn f2] =
      [⟨f1, Strategy.attr⟩, ⟨f2, Strategy.inv c⟩] := by
    simp [unionCandidates, hflat, List.filterMap_cons, candidateOf, h1, h2a, hc]
  have hmap : buildMetadataMap (some [Item.fn f1, Item.fn f2]) =
      [recordOf 2 ⟨f1, Strategy.attr⟩, recordOf 2 ⟨f2, Strategy.inv c⟩] := by
    simp [buildMetadataMap, hcands, List.filter_cons, hk1, hk2]
  rw [hmap]
  refine ⟨rfl, ?_, ?_⟩
  · simp [recordOf, hne]
  · intro e he
    rcases List.mem_pair.mp he with rfl | rfl
    · exact ⟨hk1, rfl⟩
    · exact ⟨hk2, rfl⟩

/-- C4: the attribute classifier never drops an attribute: every attached
attribute, in particular one whose name is outside the supported allow-list,
yields a descriptor; an unsupported attribute's descriptor carries
`supported = false` and its raw argument text verbatim. -/
theorem classifyAttrs_roundTrip (attrs : List AttributeNode)
    (a : AttributeNode) (hmem : a ∈ attrs)
    (hunsup : supportedAttributes.contains a.name = false) :
    (classifyAttrs attrs).length = attrs.length ∧
      classifyAttr a ∈ classifyAttrs attrs ∧
      (classifyAttr a).supported = false ∧
      (classifyAttr a).args = a.args := by
  exact ⟨List.length_map _ _, List.mem_map_of_mem classifyAttr hmem,
    hunsup, rfl⟩

/-- C5: the textual pre-check returns true on any source text containing the
proof marker (in particular any text containing an attribute-marked harness
function), and false on any text containing neither the proof marker nor a
harness-invocation pattern. -/
theorem checkFileForProofs_spec (text : String) :
    (proofMarkerText.toList <:+: text.toList →
        checkFileForProofs text = true) ∧
      ((¬ proofMarkerText.toList <:+: text.toList ∧
          ∀ p ∈ harnessEntryPoints, ¬ p.toList <:+: text.toList) →
        checkFileForProofs text = false) := by
  constructor
  · intro h
    simp only [checkFileForProofs, containsSub, Bool.or_eq_true,
      decide_eq_true_eq, List.any_eq_true]
    exact Or.inl h
  · rintro ⟨h1, h2⟩
    simp only [checkFileForProofs, containsSub, Bool.or_eq_false_iff,
      decide_eq_false_iff_not, List.any_eq_false]
    exact ⟨h1, fun p hp => by simpa using h2 p hp⟩

/-- The insertion lines of the generated-test records are the start lines of
the convention-named harness-invoking wrapper functions, in discovery
order. -/
theorem insertionLines_filterMap (l : List FnItem) :
    (l.filterMap generatedTestOf).map GeneratedTestRecord.insertionLine =
      (l.filter (fun f => strStartsWith f.name playbackMarker &&
        f.calls.contains (f.name.drop playbackMarker.length))).map
        FnItem.startLine := by
  induction l with
  | nil => rfl
  | cons f t ih =>
    by_cases hf : strStartsWith f.name playbackMarker = true ∧
        f.name.drop playbackMarker.length ∈ f.calls
    · simp [List.filterMap_cons, List.filter_cons, generatedTestOf, hf.1,
        hf.2, ih]
    · rw [Decidable.not_and_iff_or_not] at hf
      rcases hf with hf | hf
      · have hf' : strStartsWith f.name playbackMarker = false := by
          simpa using hf
        simp [List.filterMap_cons, List.filter_cons, generatedTestOf, hf', ih]
      · simp [List.filterMap_cons, List.filter_cons, generatedTestOf, hf, ih]

/-- C6: generated replay tests are reported in ascending insertion-line
order on any well-formed parse tree (depth-first traversal visits function
items in strictly increasing start-line order); and a file with a harness
`insert_test` plus two wrapper functions named per the replay convention
whose bodies invoke that harness yields exactly two records, both with
originating harness `insert_test`. -/
theorem extractGeneratedTests_spec :
    (∀ items : List Item,
        ((flattenItems items).map FnItem.startLine).Pairwise (· < ·) →
        ((extractGeneratedTests (some items)).map
            GeneratedTestRecord.insertionLine).Pairwise (· < ·)) ∧
      (∀ g w1 w2 : FnItem,
        g.name = "insert_test" →
        w1.name = "kani_concrete_playback_insert_test" →
        w2.name = "kani_concrete_playback_insert_test" →
        w1.calls.contains "insert_test" = true →
        w2.calls.contains "insert_test" = true →
        w1.startLine < w2.startLine →
        extractGeneratedTests (some [Item.fn g, Item.fn w1, Item.fn w2]) =
          [⟨w1.name, "insert_test", w1.startLine⟩,
           ⟨w2.name, "insert_test", w2.startLine⟩]) := by
  constructor
  · intro items hlines
    have hrw : (extractGeneratedTests (some items)).map
        GeneratedTestRecord.insertionLine =
        ((flattenItems items).filter
          (fun f => strStartsWith f.name playbackMarker &&
            f.calls.contains (f.name.drop playbackMarker.length))).map
          FnItem.startLine :=
      insertionLines_filterMap (flattenItems items)
    rw [hrw]
    have hsub : List.Sublist
        (((flattenItems items).filter
          (fun f => strStartsWith f.name playbackMarker &&
            f.calls.contains (f.name.drop playbackMarker.length))).map
          FnItem.startLine)
        ((flattenItems items).map FnItem.startLine) :=
      (List.filter_sublist _).map FnItem.startLine
    exact hlines.sublist hsub
  · intro g w1 w2 hg hw1 hw2 hc1 hc2 hlt
    have hgNo : strStartsWith "insert_test" playbackMarker = false := by
      decide
    have hcond : strStartsWith "kani_concrete_playback_insert_test"
        playbackMarker = true := by decide
    have hdrop : String.drop "kani_concrete_playback_insert_test"
        playbackMarker.length = "insert_test" := by decide
    have hflat : flattenItems [Item.fn g, Item.fn w1, Item.fn w2] =
        [g, w1, w2] := by simp [flattenItems]
    have hm1 : "insert_test" ∈ w1.calls := by simpa using hc1
    have hm2 : "insert_test" ∈ w2.calls := by simpa using hc2
    simp [extractGeneratedTests, hflat, List.filterMap_cons, generatedTestOf,
      hg, hw1, hw2, hgNo, hcond, hdrop, hm1, hm2]

/-- C7: a source that fails to parse yields an empty metadata map and an
empty generated-test sequence rather than a propagated exception, an empty
parse tree yields the same, and the pre-check on empty text returns false
without raising. -/
theorem emptyAndUnparsable_degrade :
    buildMetadataMap none = [] ∧
      buildMetadataMap (some []) = [] ∧
      extractGeneratedTests none = [] ∧
      extractGeneratedTests (some []) = [] ∧
      checkFileForProofs "" = false := by
  refine ⟨rfl, ?_, rfl, ?_, by decide⟩
  · simp [buildMetadataMap, unionCandidates, flattenItems]
  · simp [extractGeneratedTests, flattenItems]

/-- Witness for C1 on the sample file: two harnesses, distinct keys. -/
theorem buildMetadataMap_size_and_keys_witness :
    (buildMetadataMap (some sampleItems)).length =
        ((flattenItems sampleItems).filter
          (fun f => isAttrHarness f)).length +
          ((flattenItems sampleItems).filter
            (fun f => isInvHarness f)).length ∧
      ((buildMetadataMap (some sampleItems)).map Prod.fst).Nodup ∧
      (buildMetadataMap (some sampleItems)).map Prod.fst =
        ((flattenItems sampleItems).filter
          (fun f => isAttrHarness f || isInvHarness f)).map FnItem.name :=
  buildMetadataMap_size_and_keys sampleItems
    (by simp [sampleItems, flattenItems] <;> decide)
    (by simp [sampleItems, flattenItems] <;> decide)

/-- Witness for C2 on the sample attribute-based and invocation-based
harness pair. -/
theorem buildMetadataMap_endToEnd_witness :
    (buildMetadataMap
        (some [Item.fn sampleAttrFn, Item.fn sampleInvFn])).length = 2 ∧
      ((buildMetadataMap
        (some [Item.fn sampleAttrFn, Item.fn sampleInvFn])).map
          Prod.fst).Nodup ∧
      ∀ e ∈ buildMetadataMap (some [Item.fn sampleAttrFn, Item.fn sampleInvFn]),
        e.2.kind = HarnessKind.Proof ∧ e.2.totalProofs = 2 :=
  buildMetadataMap_endToEnd sampleAttrFn sampleInvFn (by decide) (by decide)
    (by decide) (by decide) (by decide) (by decide)

/-- Witness for C3 on the sample file, whose start lines increase. -/
theorem buildMetadataMap_discovery_order_witness :
    ((buildMetadataMap (some sampleItems)).map
        (fun e => e.2.startLine)).Pairwise (· < ·) ∧
      (buildMetadataMap (some sampleItems)).map Prod.fst =
        ((flattenItems sampleItems).filter
          (fun f => isAttrHarness f || isInvHarness f)).map FnItem.name :=
  buildMetadataMap_discovery_order sampleItems
    (by simp [sampleItems, flattenItems] <;> decide)

/-- Witness for C4 on an attribute outside the allow-list whose raw
argument text has interior whitespace. -/
theorem classifyAttrs_roundTrip_witness :
    (classifyAttrs [attrProofNode, unknownAttrNode]).length =
        [attrProofNode, unknownAttrNode].length ∧
      classifyAttr unknownAttrNode ∈
        classifyAttrs [attrProofNode, unknownAttrNode] ∧
      (classifyAttr unknownAttrNode).supported = false ∧
      (classifyAttr unknownAttrNode).args = unknownAttrNode.args :=
  classifyAttrs_roundTrip [attrProofNode, unknownAttrNode] unknownAttrNode
    (by decide) (by decide)

/-- Witness for C5: a text carrying the proof marker and a text carrying
neither marker nor invocation pattern. -/
theorem checkFileForProofs_spec_witness :
    checkFileForProofs "#[kani::proof] fn harness()" = true ∧
      checkFileForProofs "fn main()" = false :=
  ⟨(checkFileForProofs_spec "#[kani::proof] fn harness()").1 (by decide),
   (checkFileForProofs_spec "fn main()").2 (by decide)⟩

/-- Witness for C6 on the sample harness with two generated replay
wrappers. -/
theorem extractGeneratedTests_spec_witness :
    ((extractGeneratedTests
        (some [Item.fn sampleHarnessFn, Item.fn samplePlayback1,
          Item.fn samplePlayback2])).map
        GeneratedTestRecord.insertionLine).Pairwise (· < ·) ∧
      extractGeneratedTests
          (some [Item.fn sampleHarnessFn, Item.fn samplePlayback1,
            Item.fn samplePlayback2]) =
        [⟨samplePlayback1.name, "insert_test", samplePlayback1.startLine⟩,
         ⟨samplePlayback2.name, "insert_test", samplePlayback2.startLine⟩] :=
  ⟨extractGeneratedTests_spec.1 _ (by simp [flattenItems] <;> decide),
   extractGeneratedTests_spec.2 sampleHarnessFn samplePlayback1
     samplePlayback2 rfl rfl rfl (by decide) (by decide) (by decide)⟩

/-- Witness for C8 on a function detected by both strategies. -/
theorem attr_detection_precedence_witness :
    Candidate.mk sampleBothFn Strategy.attr ∈
        unionCandidates [Item.fn sampleBothFn] ∧
      ∀ c : String, Candidate.mk sampleBothFn (Strategy.inv c) ∉
        unionCandidates [Item.fn sampleBothFn] :=
  attr_detection_precedence [Item.fn sampleBothFn] sampleBothFn
    (by simp [flattenItems]) (by decide) (by decide)

end KaniExt

namespace Coverage

/-- C9: `setFileType` classifies by a fixed priority: all three CLOVER
indicators win even in the presence of the JACOCO indicator; then JACOCO;
then the xml prologue alone means COBERTURA; any other non-empty string is
LCOV; and exactly the empty string is NONE. -/
theorem setFileType_priority (file : String) :
    (KaniExt.containsSub file "<?xml" = true →
      KaniExt.containsSub file "<coverage" = true →
      KaniExt.containsSub file "<project" = true →
      setFileType file = CoverageType.CLOVER) ∧
    (¬(KaniExt.containsSub file "<?xml" = true ∧
        KaniExt.containsSub file "<coverage" = true ∧
        KaniExt.containsSub file "<project" = true) →
      KaniExt.containsSub file "JACOCO" = true →
      setFileType file = CoverageType.JACOCO) ∧
    (¬(KaniExt.containsSub file "<?xml" = true ∧
        KaniExt.containsSub file "<coverage" = true ∧
        KaniExt.containsSub file "<project" = true) →
      KaniExt.containsSub file "JACOCO" = false →
      KaniExt.containsSub file "<?xml" = true →
      setFileType file = CoverageType.COBERTURA) ∧
    (KaniExt.containsSub file "<?xml" = false →
      KaniExt.containsSub file "JACOCO" = false →
      file ≠ "" →
      setFileType file = CoverageType.LCOV) ∧
    (setFileType file = CoverageType.NONE ↔ file = "") := by
  refine ⟨?_, ?_, ?_, ?_, ?_, ?_⟩
  · intro h1 h2 h3
    simp [setFileType, h1, h2, h3]
  · intro hno hj
    have hand : (KaniExt.containsSub file "<?xml" &&
        KaniExt.containsSub file "<coverage" &&
        KaniExt.containsSub file "<project") = false := by
      cases e1 : KaniExt.containsSub file "<?xml" <;>
        cases e2 : KaniExt.containsSub file "<coverage" <;>
          cases e3 : KaniExt.containsSub file "<project" <;>
            simp_all
    simp only [setFileType]
    rw [hand]
    simp [hj]
  · intro hno hj hx
    have hand : (KaniExt.containsSub file "<?xml" &&
        KaniExt.containsSub file "<coverage" &&
        KaniExt.containsSub file "<project") = false := by
      cases e1 : KaniExt.containsSub file "<?xml" <;>
        cases e2 : KaniExt.containsSub file "<coverage" <;>
          cases e3 : KaniExt.containsSub file "<project" <;>
            simp_all
    simp only [setFileType]
    rw [hand]
    simp [hj, hx]
  · intro hx hj hne
    simp [setFileType, hx, hj, hne]
  · intro h
    by_contra hne
    cases e1 : KaniExt.containsSub file "<?xml" <;>
      cases e2 : KaniExt.containsSub file "<coverage" <;>
        cases e3 : KaniExt.containsSub file "<project" <;>
          cases e4 : KaniExt.containsSub file "JACOCO" <;>
            simp [setFileType, e1, e2, e3, e4, hne] at h
  · intro h
    subst h
    decide

/-- Merging the freshly created empty coverage map changes nothing. -/
theorem mergeMaps_nil (a : List (String × CovSection)) : mergeMaps a [] = a :=
  rfl

/-- The lcov extraction promise settles on every delegate behaviour. -/
theorem lcovExtract_isSome (b : LcovBehavior) : (lcovExtract b).isSome = true := by
  cases b <;> rfl

/-- A file whose content is not sniffed as LCOV leaves the accumulated
coverages untouched. -/
theorem accumFile_not_lcov (delegate : String → String → LcovBehavior)
    (acc : Option (List (String × CovSection))) (file : String × String)
    (hty : setFileType file.2 ≠ CoverageType.LCOV) :
    accumFile delegate acc file = acc := by
  cases acc with
  | none => rfl
  | some coverages =>
    simp only [accumFile]
    cases hs : setFileType file.2 <;> simp_all [mergeMaps_nil]

/-- One loop iteration keeps the settled accumulator settled. -/
theorem accumFile_isSome (delegate : String → String → LcovBehavior)
    (acc : Option (List (String × CovSection))) (file : String × String)
    (hacc : acc.isSome = true) :
    (accumFile delegate acc file).isSome = true := by
  cases acc with
  | none => simp at hacc
  | some coverages =>
    simp only [accumFile]
    cases hs : setFileType file.2 <;>
      first
        | rfl
        | (cases hb : lcovExtract (delegate file.1 file.2) with
            | none =>
              have := lcovExtract_isSome (delegate file.1 file.2)
              simp [hb] at this
            | some coverage => rfl)

/-- Folding the loop body over any file list preserves settledness. -/
theorem foldl_accumFile_isSome (delegate : String → String → LcovBehavior)
    (files : List (String × String)) :
    ∀ acc : Option (List (String × CovSection)), acc.isSome = true →
      (files.foldl (accumFile delegate) acc).isSome = true := by
  induction files with
  | nil => intro acc hacc; simpa using hacc
  | cons f t ih =>
    intro acc hacc
    rw [List.foldl_cons]
    exact ih _ (accumFile_isSome delegate acc f hacc)

/-- Folding the loop body ignores files not sniffed as LCOV. -/
theorem foldl_accumFile_filter (delegate : String → String → LcovBehavior)
    (files : List (String × String)) :
    ∀ acc : Option (List (String × CovSection)),
      files.foldl (accumFile delegate) acc =
        (files.filter
          (fun f => decide (setFileType f.2 = CoverageType.LCOV))).foldl
          (accumFile delegate) acc := by
  induction files with
  | nil => intro acc; rfl
  | cons f t ih =>
    intro acc
    by_cases hty : setFileType f.2 = CoverageType.LCOV
    · rw [List.foldl_cons, List.filter_cons_of_pos (by simp [hty]),
        List.foldl_cons]
      exact ih _
    · rw [List.foldl_cons, List.filter_cons_of_neg (by simp [hty]),
        accumFile_not_lcov delegate acc f hty]
      exact ih _

/-- C10: the lcov extraction never rejects — a delegate that reports an
error or throws still yields a promise that resolves with the empty section
map — so `filesToSections` always resolves, and files of any type other
than LCOV contribute no sections to the result. -/
theorem filesToSections_total (delegate : String → String → LcovBehavior)
    (files : List (String × String)) :
    lcovExtract LcovBehavior.reportsError = some [] ∧
      lcovExtract LcovBehavior.throws = some [] ∧
      (filesToSections delegate files).isSome = true ∧
      filesToSections delegate files =
        filesToSections delegate
          (files.filter (fun f => decide (setFileType f.2 = CoverageType.LCOV))) := by
  refine ⟨rfl, rfl, ?_, ?_⟩
  · exact foldl_accumFile_isSome delegate files (some []) rfl
  · exact foldl_accumFile_filter delegate files (some [])

/-- Witness for C9 on concrete data strings, one per priority tier. -/
theorem setFileType_priority_witness :
    setFileType "<?xml <coverage <project JACOCO" = CoverageType.CLOVER ∧
      setFileType "TN: JACOCO" = CoverageType.JACOCO ∧
      setFileType "<?xml version" = CoverageType.COBERTURA ∧
      setFileType "TN:" = CoverageType.LCOV ∧
      setFileType "" = CoverageType.NONE :=
  ⟨(setFileType_priority "<?xml <coverage <project JACOCO").1
      (by decide) (by decide) (by decide),
   (setFileType_priority "TN: JACOCO").2.1 (by decide) (by decide),
   (setFileType_priority "<?xml version").2.2.1
      (by decide) (by decide) (by decide),
   (setFileType_priority "TN:").2.2.2.1 (by decide) (by decide) (by decide),
   (setFileType_priority "").2.2.2.2.mpr rfl⟩

end Coverage
